import Mathlib

/-!
Verification of the `create-mococa-app` template materialization engine
(`bin/cli.js`) against its natural-language specification.

The CLI is embedded shallowly: command-line parsing, feature-flag
resolution, the project-name normalization, the directory-copy walk with
its inclusion filter, and the text-rewrite primitives (the JS
`String.replace` calls on literal patterns and on anchored block
patterns) are translated into executable Lean functions over `String`
(backed by `List Char`).  JS regular expressions in the source are all
of two shapes: global replacement of a literal string, and removal of a
span located by literal textual anchors; they are modelled by
`replaceAll`, `removeFromThrough` and `removeUpTo` below.
-/

set_option maxRecDepth 8000

namespace Cma

/-! ## String primitives (List Char based, kernel-evaluable) -/

/-- `needle.isPrefixOf hay` at each position: first index (from `i`) where
`needle` occurs in `hay`, mirroring a JS regex/`indexOf` search for a
literal pattern. -/
def idxOfAux (needle : List Char) : List Char → Nat → Option Nat
  | [], i => if needle.isEmpty then some i else none
  | c :: t, i => if needle.isPrefixOf (c :: t) then some i else idxOfAux needle t (i + 1)

/-- Index of the first occurrence of `needle` in `hay`, if any. -/
def idxOf? (needle hay : String) : Option Nat :=
  idxOfAux needle.data hay.data 0

/-- Whether `needle` occurs as a contiguous substring of `hay`
(JS `String.includes` / a successful regex search for a literal). -/
def containsStr (needle hay : List Char) : Bool :=
  match hay with
  | [] => needle.isEmpty
  | _ :: t => needle.isPrefixOf hay || containsStr needle t

/-- String-level wrapper for `containsStr`. -/
def strIncludes (hay needle : String) : Bool :=
  containsStr needle.data hay.data

/-- String-level `startsWith` (JS `String.startsWith`). -/
def strStartsWith (s p : String) : Bool :=
  p.data.isPrefixOf s.data

/-- Fuel-driven worker for global literal replacement.  One unit of fuel
is spent per scanned position; `fuel = hay.length` always suffices.
After a match the scan resumes after the matched portion, as JS
`String.replace` with a `/g` literal pattern does. -/
def replaceAllAux (needle repl : List Char) : Nat → List Char → List Char
  | 0, hay => hay
  | _ + 1, [] => []
  | fuel + 1, c :: t =>
    if needle.isPrefixOf (c :: t) then
      repl ++ replaceAllAux needle repl fuel ((c :: t).drop needle.length)
    else
      c :: replaceAllAux needle repl fuel t

/-- Global replacement of every occurrence of the literal `needle` by
`repl` (JS `content.replace(/needle/g, repl)` for a literal pattern). -/
def replaceAll (needle repl s : String) : String :=
  String.mk (replaceAllAux needle.data repl.data s.data.length s.data)

/-- Delete the span that starts at the first occurrence of `a`, passes
through the following occurrence of `m`, and ends right after the next
occurrence of `e` (the shape of the JS patterns
`/A[\s\S]*?M.*\n\n/`).  If any anchor is missing the content is
returned unchanged, as JS `String.replace` does on a failed match. -/
def removeFromThrough (a m e s : String) : String :=
  match idxOf? a s with
  | none => s
  | some ia =>
    let afterA := s.data.drop (ia + a.data.length)
    match idxOfAux m.data afterA 0 with
    | none => s
    | some im =>
      let afterM := afterA.drop (im + m.data.length)
      match idxOfAux e.data afterM 0 with
      | none => s
      | some ie =>
        String.mk (s.data.take ia ++ afterM.drop (ie + e.data.length))

/-- Delete the span from the first occurrence of `a` up to (but not
including) the next occurrence of `e` (the shape of the JS patterns
`/A[\s\S]*?(?=E)/`).  If either anchor is missing the content is
returned unchanged. -/
def removeUpTo (a e s : String) : String :=
  match idxOf? a s with
  | none => s
  | some ia =>
    let afterA := s.data.drop (ia + a.data.length)
    match idxOfAux e.data afterA 0 with
    | none => s
    | some ie =>
      String.mk (s.data.take ia ++ afterA.drop ie)

/-- Split on a separator character, JS `String.split(sep)`
(every occurrence splits; no trimming). -/
def splitOnCharAux (sep : Char) : List Char → List Char → List String
  | acc, [] => [String.mk acc.reverse]
  | acc, c :: t =>
    if c == sep then String.mk acc.reverse :: splitOnCharAux sep [] t
    else splitOnCharAux sep (c :: acc) t

/-- JS `s.split(sep)` for a single-character separator. -/
def splitOnChar (sep : Char) (s : String) : List String :=
  splitOnCharAux sep [] s.data

/-- JS `String.trim` restricted to ASCII space characters, which is all
the environment prompt can produce. -/
def trimSpaces (s : String) : String :=
  String.mk (((s.data.dropWhile (· == ' ')).reverse.dropWhile (· == ' ')).reverse)

/-! ## Option resolver (cli.js `main`, lines 89-160 and 300-352) -/

/-- `defaultValues` (cli.js lines 13-20): the fixed defaults used when
`--skip` is given; every optional feature defaults to disabled. -/
def defaultValues (_key : String) : Bool := false

/-- Text after the first `=` of `arg` — JS `arg.split('=')[1]`
(for an argument already known to contain `=`). -/
def afterEq (arg : String) : String :=
  (splitOnChar '=' arg).getD 1 ""

/-- `parseMultiTextFlag` (cli.js lines 93-105): collect the values of a
repeatable text flag.  An argument starting with the flag name yields
the text after its `=` when it has one, otherwise the following
argument when that exists, is non-empty (JS truthiness) and does not
start with `--`. -/
def parseMultiTextFlag (flagName : String) : List String → List String
  | [] => []
  | [a] =>
    if strStartsWith a flagName then
      if a.data.contains '=' then [afterEq a] else []
    else []
  | a :: b :: rest =>
    (if strStartsWith a flagName then
      if a.data.contains '=' then [afterEq a]
      else if b != "" && !(strStartsWith b "--") then [b]
      else []
    else []) ++ parseMultiTextFlag flagName (b :: rest)

/-- `exceptFlags` (cli.js line 107): the values of `--except` followed by
the values of `-e`. -/
def exceptFlags (args : List String) : List String :=
  parseMultiTextFlag "--except" args ++ parseMultiTextFlag "-e" args

/-- `parseFlag` (cli.js lines 111-119): resolve one boolean feature
flag.  The exclusion list is consulted first, then the explicit flag,
then `--full`, then the `--skip` default; with no signal the result is
`none` (JS `null`), which later triggers the interactive prompt. -/
def parseFlag (args : List String) (flagName defaultKey : String) : Option Bool :=
  if (exceptFlags args).contains defaultKey then some false
  else if args.contains flagName then some true
  else if args.contains "--full" then some true
  else if args.contains "--skip" then some (defaultValues defaultKey)
  else none

/-- `parseTextFlag` (cli.js lines 123-137): value and value-index of a
single-valued text flag such as `--domain`.  The value index is `none`
(JS `-1`) unless the value was taken from the following argument. -/
def parseTextFlagAux (flagName : String) : List String → Nat → Option String × Option Nat
  | [], _ => (none, none)
  | [a], _ =>
    if strStartsWith a flagName then
      if a.data.contains '=' then (some (afterEq a), none) else (none, none)
    else (none, none)
  | a :: b :: rest, i =>
    if strStartsWith a flagName then
      if a.data.contains '=' then (some (afterEq a), none)
      else if b != "" && !(strStartsWith b "--") then (some b, some (i + 1))
      else (none, none)
    else parseTextFlagAux flagName (b :: rest) (i + 1)

/-- `parseTextFlag('--domain')` (cli.js line 153). -/
def parseDomainFlag (args : List String) : Option String × Option Nat :=
  parseTextFlagAux "--domain" args 0

/-- `customProjectName` (cli.js lines 156-160): the first argument that
does not start with `-` and is not the value consumed by `--domain`.
Values consumed by `--except`/`-e` are *not* excluded from this scan. -/
def customProjectNameAux (domainIdx : Option Nat) : List String → Nat → Option String
  | [], _ => none
  | a :: rest, i =>
    if !(strStartsWith a "--") && !(strStartsWith a "-") && domainIdx ≠ some i then some a
    else customProjectNameAux domainIdx rest (i + 1)

/-- The positional project name extracted from `args`. -/
def customProjectName (args : List String) : Option String :=
  customProjectNameAux (parseDomainFlag args).2 args 0

/-- A character kept verbatim by the project-name normalization:
a lowercase ASCII letter or a digit. -/
def isLowerAlnum (c : Char) : Bool :=
  ('a' ≤ c && c ≤ 'z') || ('0' ≤ c && c ≤ '9')

/-- A character admissible in a normalized project name:
a lowercase ASCII letter, a digit, or a hyphen. -/
def isKebabChar (c : Char) : Bool :=
  isLowerAlnum c || c == '-'

/-- Worker for `/[^a-z0-9]+/g → '-'`: each maximal run of characters
outside `[a-z0-9]` contributes a single `'-'`; the `inRun` flag records
whether the previous character belonged to such a run. -/
def kebabRunsAux : Bool → List Char → List Char
  | _, [] => []
  | inRun, c :: t =>
    if isLowerAlnum c then c :: kebabRunsAux false t
    else if inRun then kebabRunsAux true t
    else '-' :: kebabRunsAux true t

/-- Strip the leading and trailing runs of `'-'`
(JS `replace(/^-+|-+$/g, '')`). -/
def trimDashes (l : List Char) : List Char :=
  ((l.dropWhile (· == '-')).reverse.dropWhile (· == '-')).reverse

/-- The project-name normalization (cli.js lines 308-311):
lowercase, collapse every run of characters outside `[a-z0-9]` to a
single hyphen, then strip leading and trailing hyphens. -/
def kebabify (raw : String) : String :=
  String.mk (trimDashes (kebabRunsAux false (raw.data.map Char.toLower)))

/-- `shouldPromptFeatures` (cli.js lines 216-222): the feature prompts
run only when `--skip` is absent and no feature flag produced a
signal. -/
def shouldPromptFeatures (args : List String) : Bool :=
  !(args.contains "--skip") &&
    (parseFlag args "--lambda" "lambda").isNone &&
    (parseFlag args "--dynamo" "dynamo").isNone &&
    (parseFlag args "--s3" "s3").isNone &&
    (parseFlag args "--api" "api").isNone &&
    (parseFlag args "--cognito" "cognito").isNone &&
    (parseFlag args "--environments" "environments").isNone

/-- Whether the environment-names question is pushed onto the prompt
list at all (cli.js lines 275-276): it requires either an explicit
`--environments` flag or the feature-prompt round, and is suppressed
whenever `--skip` or `--full` is present. -/
def envQuestionPushed (args : List String) : Bool :=
  (args.contains "--environments" || shouldPromptFeatures args) &&
    !(args.contains "--skip") && !(args.contains "--full")

/-- The environments answer visible to `main`: the prompt collaborator
returns a value for the question only when the question was pushed and
its conditional type function selected it (cli.js lines 277-281),
i.e. when `--environments` was explicit or the user answered yes to
`wantEnvironments`. -/
def environmentsAnswer (args : List String) (wantEnvironments : Bool)
    (rawAnswer : Option String) : Option String :=
  if envQuestionPushed args && (args.contains "--environments" || wantEnvironments) then
    rawAnswer
  else none

/-- `environments` (cli.js lines 350-352): the user-supplied
comma-separated list, trimmed, when the environments feature is on and
an answer exists (JS truthiness: `undefined` and `""` both fall
through); otherwise the fixed `['production']`. -/
def resolvedEnvironments (finalIncludeEnvironments : Bool)
    (environmentsInput : Option String) : List String :=
  match environmentsInput with
  | some s =>
    if finalIncludeEnvironments && s != "" then (splitOnChar ',' s).map trimSpaces
    else ["production"]
  | none => ["production"]

/-! ## Generation config and the copy/transform pass (cli.js 588-785) -/

/-- The fully resolved configuration threaded through `copyDirectory`
(its parameter list, cli.js line 588). -/
structure GenConfig where
  projectName : String
  domain : String
  api : Bool
  lambda : Bool
  dynamo : Bool
  s3 : Bool
  cognito : Bool
  environments : List String

/-- The project-name placeholder token `{{PROJECT_NAME}}`. -/
def placeholderToken : String := "\x7b\x7bPROJECT_NAME\x7d\x7d"

/-- Placeholder substitution (cli.js line 648):
`content.replace(/\{\{PROJECT_NAME\}\}/g, projectName)`. -/
def substitutePlaceholders (projectName content : String) : String :=
  replaceAll placeholderToken projectName content

/-- Lambda-feature skip test (cli.js lines 600-608). -/
def skipLambda (cfg : GenConfig) (rp : String) : Bool :=
  !cfg.lambda &&
    (strStartsWith rp "packages/lambdas" ||
      strIncludes rp "infrastructure/src/resources/apigateway" ||
      strIncludes rp "infrastructure/src/resources/lambdas")

/-- Dynamo-feature skip test (cli.js lines 622-626). -/
def skipDynamo (cfg : GenConfig) (rp : String) : Bool :=
  !cfg.dynamo && strIncludes rp "infrastructure/src/resources/dynamo"

/-- S3-feature skip test (cli.js lines 629-633). -/
def skipS3 (cfg : GenConfig) (rp : String) : Bool :=
  !cfg.s3 && strIncludes rp "infrastructure/src/resources/s3-storage"

/-- Cognito-feature skip test (cli.js lines 636-640). -/
def skipCognito (cfg : GenConfig) (rp : String) : Bool :=
  !cfg.cognito && strIncludes rp "infrastructure/src/resources/cognito"

/-- No owned path-prefix of a disabled feature is a prefix of the
path `p`: the inclusion-filter completeness property of spec section
8, phrased per feature with the fixed ownership table of cli.js
lines 599-640. -/
def ownedPrefixFree (cfg : GenConfig) (p : String) : Prop :=
  (cfg.lambda = false →
    strStartsWith p "packages/lambdas" = false ∧
    strStartsWith p "infrastructure/src/resources/apigateway" = false ∧
    strStartsWith p "infrastructure/src/resources/lambdas" = false) ∧
  (cfg.dynamo = false → strStartsWith p "infrastructure/src/resources/dynamo" = false) ∧
  (cfg.s3 = false → strStartsWith p "infrastructure/src/resources/s3-storage" = false) ∧
  (cfg.cognito = false → strStartsWith p "infrastructure/src/resources/cognito" = false)

/-- The `apigateway.ts` rewrite applied when lambda is enabled but
dynamo is not (cli.js lines 611-618): remove the `DynamoResource`
line of the import, then the (believed-required) `dynamodb` prop line.  Both
patterns are literal; a failed match leaves the content unchanged. -/
def apigwDynamoRewrite (content : String) : String :=
  replaceAll "  dynamodb: DynamoResource;\n" ""
    (replaceAll "import type \x7b DynamoResource \x7d from \x27./dynamo\x27;\n" "" content)

/-- The removable export lines of `infrastructure/src/index.ts`
(cli.js lines 680-684 and 687-703). -/
def apigwUrlExport : String :=
  "export const apigwUrl = backend.apigateway.api.apiEndpoint;\n"

def dynamoTableExport : String :=
  "export const dynamoTableName = backend.dynamo.table.name;\n"

def s3BucketExport : String :=
  "export const s3StorageBucketName = backend.storage.bucket.bucket;\n"

def cognitoPoolExport : String :=
  "export const cognitoUserPoolId = backend.cognito.userpool.id;\n"

def cognitoClientExport : String :=
  "export const cognitoUserPoolClientId = backend.cognito.userpoolClient.id;\n"

/-- The backend instantiation block matched when lambda is disabled but
some other backend feature is enabled (cli.js lines 690-693), and its
replacement. -/
def backendInstFull : String :=
  "const backend = new BackendComponent(\n  `backend-$\x7benvironment\x7d`,\n  \x7b\n" ++
  "    environment,\n    certificateArn: certificate.acm.arn,\n  \x7d,\n" ++
  "  \x7b dependsOn: [certificate.acm] \x7d,\n);"

def backendInstSlim : String :=
  "const backend = new BackendComponent(`backend-$\x7benvironment\x7d`, \x7b\n  environment,\n\x7d);"

/-- The `infrastructure/src/index.ts` rewrite (cli.js lines 672-706).
With every backend feature disabled the whole backend-component import
and instantiation block is removed together with all five backend
exports; otherwise only the per-feature export lines (and, without
lambda, the certificate wiring of the instantiation) are edited.  The
two block removals model the anchored patterns
`/\/\* ---------- Components ---------- \*\/[\s\S]*?import \{ BackendComponent \}.*\n\n/`
and `/\/\* ---------- Backend ---------- \*\/[\s\S]*?(?=\/\* ---------- Exports)/`. -/
def infraIndexRewrite (lambda dynamo s3 cognito : Bool) (content : String) : String :=
  if !lambda && !dynamo && !s3 && !cognito then
    let c := removeFromThrough "/* ---------- Components ---------- */"
      "import \x7b BackendComponent \x7d" "\n\n" content
    let c := removeUpTo "/* ---------- Backend ---------- */" "/* ---------- Exports" c
    let c := replaceAll apigwUrlExport "" c
    let c := replaceAll dynamoTableExport "" c
    let c := replaceAll s3BucketExport "" c
    let c := replaceAll cognitoPoolExport "" c
    replaceAll cognitoClientExport "" c
  else
    let c := if !lambda then
        replaceAll backendInstFull backendInstSlim (replaceAll apigwUrlExport "" content)
      else content
    let c := if !dynamo then replaceAll dynamoTableExport "" c else c
    let c := if !s3 then replaceAll s3BucketExport "" c else c
    if !cognito then
      replaceAll cognitoClientExport "" (replaceAll cognitoPoolExport "" c)
    else c

/-! ## Derived file generators (cli.js 787-1015) -/

/-- `generatePulumiEnvConfig` (cli.js lines 787-797). -/
def generatePulumiEnvConfig (projectName environment : String) : String :=
  "config:\n  aws:profile: \"\"\n  aws:region: us-east-1\n  aws:defaultTags:\n" ++
  "    tags:\n      project: " ++ projectName ++ "\n      environment: " ++ environment ++
  "\n  " ++ projectName ++ ":environment: " ++ environment ++ "\n"

/-- The four backend resource bullets of the generated README
(cli.js lines 834-837). -/
def cognitoBullet : String :=
  "- **Cognito** - User authentication with email/password + OAuth"

def dynamoBullet : String :=
  "- **DynamoDB** - NoSQL database with single-table design"

def s3Bullet : String :=
  "- **S3 Storage** - Private bucket for file uploads"

def lambdaBullet : String :=
  "- **API Gateway + Lambdas** - Serverless API endpoints"

/-- `backendResources` (cli.js lines 833-837): the bullets pushed for
each enabled backend feature, in source order. -/
def backendResources (cognito dynamo s3 lambda : Bool) : List String :=
  (if cognito then [cognitoBullet] else []) ++
  (if dynamo then [dynamoBullet] else []) ++
  (if s3 then [s3Bullet] else []) ++
  (if lambda then [lambdaBullet] else [])

/-- `backendSection` (cli.js lines 831-868): the infrastructure section
of the README, empty unless some backend feature is enabled. -/
def backendSection (lambda dynamo s3 cognito : Bool) : String :=
  if lambda || dynamo || s3 || cognito then
    "\n\n## Infrastructure\n\nThis project uses Pulumi for infrastructure management " ++
    "with a component-based architecture:\n\n### Backend Component\n\n" ++
    "All AWS backend resources are organized in `infrastructure/src/components/backend.ts`:\n\n" ++
    String.intercalate "\n" (backendResources cognito dynamo s3 lambda) ++
    "\n\nDeploy infrastructure:\n```bash\ncd infrastructure\nbun run deploy\n```\n\n" ++
    "Preview changes:\n```bash\ncd infrastructure\nbun run preview\n```\n\n" ++
    "Tear down resources:\n```bash\ncd infrastructure\nbun run destroy\n```"
  else ""

/-- `generateReadme` (cli.js lines 799-916). -/
def generateReadme (projectName : String)
    (includeApi includeLambda includeDynamo includeS3 includeCognito : Bool) : String :=
  let hasAnyBackend := includeLambda || includeDynamo || includeS3 || includeCognito
  let structureItems :=
    ["- `apps/landing-page` - Nullstack landing page with Tailwind CSS"] ++
    (if includeApi then ["- `apps/api` - Elysia API server"] else []) ++
    ["- `packages/ui` - Shared UI components library",
     "- `packages/constants` - Project constants and environment configuration"] ++
    (if includeLambda then ["- `packages/lambdas` - Lambda functions"] else []) ++
    (if hasAnyBackend then ["- `infrastructure` - Pulumi infrastructure as code"] else [])
  let techStack :=
    ["- [Nullstack](https://nullstack.app/) - Full-stack JavaScript framework",
     "- [Tailwind CSS](https://tailwindcss.com/) - Utility-first CSS framework",
     "- [Biome](https://biomejs.dev/) - Fast formatter and linter",
     "- [Bun](https://bun.sh/) - Fast JavaScript runtime and package manager with workspaces"] ++
    (if includeApi then ["- [Elysia](https://elysiajs.com/) - Fast Bun web framework"] else []) ++
    (if hasAnyBackend then ["- [Pulumi](https://www.pulumi.com/) - Infrastructure as Code"] else [])
  "# " ++ projectName ++
  "\n\nA monorepo project built with Nullstack, featuring Biome for linting and formatting.\n\n" ++
  "## Getting Started\n\n### Install dependencies\n\n```bash\nbun install\n```\n\n" ++
  "### Development\n\nStart the development server:\n\n```bash\nbun start\n```\n\n" ++
  "The landing page will be available at http://localhost:3000\n\n" ++
  "### Build\n\nBuild the project:\n\n```bash\nbun run build\n```\n\n" ++
  "### Format Code\n\nFormat code with Biome:\n\n```bash\nbun run fmt\n```\n\n" ++
  "## Project Structure\n\n" ++ String.intercalate "\n" structureItems ++
  "\n\n## Tech Stack\n\n" ++ String.intercalate "\n" techStack ++
  backendSection includeLambda includeDynamo includeS3 includeCognito ++ "\n"

/-- The landing-page domain block of the generated constants module
(cli.js lines 923-927): for each environment one line whose value is
the TS expression `DOMAIN_BASE` for `production` and the template
literal `` `env.${DOMAIN_BASE}` `` otherwise. -/
def landingPageDomainsText (environments : List String) : String :=
  String.intercalate ",\n" (environments.map fun env =>
    let domainValue :=
      if env == "production" then "DOMAIN_BASE"
      else "`" ++ env ++ ".$\x7bDOMAIN_BASE\x7d`"
    "    " ++ env ++ ": " ++ domainValue)

/-- The api domain block (cli.js lines 935-939). -/
def apiDomainsText (environments : List String) : String :=
  String.intercalate ",\n" (environments.map fun env =>
    let domainValue :=
      if env == "production" then "`api.$\x7bDOMAIN_BASE\x7d`"
      else "`api-" ++ env ++ ".$\x7bDOMAIN_BASE\x7d`"
    "    " ++ env ++ ": " ++ domainValue)

/-- The apigw domain block (cli.js lines 946-950). -/
def apigwDomainsText (environments : List String) : String :=
  String.intercalate ",\n" (environments.map fun env =>
    let domainValue :=
      if env == "production" then "`apigw.$\x7bDOMAIN_BASE\x7d`"
      else "`apigw-" ++ env ++ ".$\x7bDOMAIN_BASE\x7d`"
    "    " ++ env ++ ": " ++ domainValue)

/-- `domainsObject` (cli.js lines 930-954): the landing-page table is
always present; the api table is appended only with the api feature and
the apigw table only with the lambda feature. -/
def domainsObjectText (environments : List String) (includeApi includeLambda : Bool) : String :=
  "  \x27landing-page\x27: \x7b\n" ++ landingPageDomainsText environments ++ ",\n  \x7d," ++
  (if includeApi then
    "\n  api: \x7b\n" ++ apiDomainsText environments ++ ",\n  \x7d," else "") ++
  (if includeLambda then
    "\n  apigw: \x7b\n" ++ apigwDomainsText environments ++ ",\n  \x7d," else "")

/-- `additionalConstants` (cli.js lines 956-994). -/
def additionalConstantsText (environments : List String) (dynamo s3 cognito : Bool) : String :=
  (if dynamo then
    "\n// DynamoDB table names per environment\n" ++
    "export const DYNAMODB_TABLES: Record<Environment, string> = \x7b\n" ++
    String.intercalate ",\n" (environments.map fun env =>
      "  " ++ env ++ ": `$\x7bPROJECT_NAME\x7d-Table-" ++ env ++ "`") ++
    ",\n\x7d;\n"
  else "") ++
  (if s3 then
    "\n// S3 bucket names per environment\n" ++
    "export const S3_STORAGE_BUCKETS: Record<Environment, string> = \x7b\n" ++
    String.intercalate ",\n" (environments.map fun env =>
      "  " ++ env ++ ": `$\x7bPROJECT_NAME\x7d-storage-" ++ env ++ "`") ++
    ",\n\x7d;\n"
  else "") ++
  (if cognito then
    "\n// Cognito User Pool names per environment\n" ++
    "export const COGNITO_USER_POOLS: Record<Environment, string> = \x7b\n" ++
    String.intercalate ",\n" (environments.map fun env =>
      "  " ++ env ++ ": `$\x7bPROJECT_NAME\x7d-userpool-" ++ env ++ "`") ++
    ",\n\x7d;\n\n// Cognito User Pool Client names per environment\n" ++
    "export const COGNITO_USER_POOL_CLIENTS: Record<Environment, string> = \x7b\n" ++
    String.intercalate ",\n" (environments.map fun env =>
      "  " ++ env ++ ": `$\x7bPROJECT_NAME\x7d-userpool-client-" ++ env ++ "`") ++
    ",\n\x7d;\n"
  else "")

/-- `generateConstantsFile` (cli.js lines 918-1015): the constants
module emitted from scratch (the template copy is discarded). -/
def generateConstantsFile (projectName domain : String) (environments : List String)
    (includeApi includeLambda includeDynamo includeS3 includeCognito : Bool) : String :=
  let envsObject := String.intercalate ",\n" (environments.map fun env =>
    "  " ++ env ++ ": \x27" ++ env ++ "\x27")
  let envsType := String.intercalate " | " (environments.map fun env =>
    "\x27" ++ env ++ "\x27")
  "// Project name\nexport const PROJECT_NAME = \x27" ++ projectName ++ "\x27;\n\n" ++
  "// Base domain (configure this for your project)\n" ++
  "export const DOMAIN_BASE = \x27" ++ domain ++ "\x27;\n\n" ++
  "// Environment-specific configuration\nexport const ENVIRONMENTS = \x7b\n" ++
  envsObject ++ ",\n\x7d as const;\n\nexport type Environment = " ++ envsType ++ ";\n\n" ++
  "// Domain configuration by app and environment\n" ++
  "export const DOMAINS: Record<string, Record<Environment, string>> = \x7b\n" ++
  domainsObjectText environments includeApi includeLambda ++ "\n\x7d;\n" ++
  additionalConstantsText environments includeDynamo includeS3 includeCognito ++ "\n"

/-! Resolved (denotational) readings of the emitted domain tables: the
constants module defines `DOMAIN_BASE` as the base domain, so the TS
expression `DOMAIN_BASE` denotes the base domain itself and the
template literal `` `X${DOMAIN_BASE}` `` denotes `X` followed by the
base domain.  These definitions mirror cli.js lines 923-953 entry for
entry with the expressions so resolved. -/

/-- The landing-page domain table resolved at the base domain. -/
def landingPageDomainTable (base : String) (environments : List String) :
    List (String × String) :=
  environments.map fun env =>
    (env, if env == "production" then base else env ++ "." ++ base)

/-- The api domain table resolved at the base domain. -/
def apiDomainTable (base : String) (environments : List String) :
    List (String × String) :=
  environments.map fun env =>
    (env, if env == "production" then "api." ++ base else "api-" ++ env ++ "." ++ base)

/-- The apigw domain table resolved at the base domain. -/
def apigwDomainTable (base : String) (environments : List String) :
    List (String × String) :=
  environments.map fun env =>
    (env, if env == "production" then "apigw." ++ base else "apigw-" ++ env ++ "." ++ base)

/-- The resolved `DOMAINS` object: which app tables are present
(cli.js lines 930-954). -/
def domainsTables (base : String) (environments : List String)
    (includeApi includeLambda : Bool) : List (String × List (String × String)) :=
  [("landing-page", landingPageDomainTable base environments)] ++
  (if includeApi then [("api", apiDomainTable base environments)] else []) ++
  (if includeLambda then [("apigw", apigwDomainTable base environments)] else [])

/-! ## The directory walk (cli.js `copyDirectory`, lines 588-785) -/

/-- A template-tree entry: a text file with its content, or a directory
with its children (in directory-entry order). -/
inductive FsTree where
  | file (name content : String)
  | dir (name : String) (children : List FsTree)
deriving Repr

/-- `path.join(dest, entry.name)` relative to the template root. -/
def joinRel (d n : String) : String :=
  if d == "" then n else d ++ "/" ++ n

/-- One step of `copyDirectory`: the list of (relative output path,
output content) pairs produced for a template entry whose parent
directory has relative path `relDir`.  Mirrors the loop body of
cli.js lines 593-784: the lambda skip, the `apigateway.ts` special
branch (which writes the rewritten raw content *without* placeholder
substitution and skips the remaining filters), the dynamo/s3/cognito
skips, recursion for directories, and the per-file content pipeline
(substitution first, then the filename-dispatched rewrites).  The
`backend.ts` content rewrite (cli.js 709-765) and the root
`package.json` script rewrite (cli.js 768-780) are applied to contents
no claim refers to and are modelled as plain substituted copies; paths
are unaffected.  The `srcPath.includes(...)` tests are modelled on the
relative path, and the `apigateway.ts` branch is modelled for files
only (on a directory so named the source would throw in
`readFileSync`). -/
def copyEntry (cfg : GenConfig) (relDir : String) : FsTree → List (String × String)
  | .file name content =>
    let rp := joinRel relDir name
    if skipLambda cfg rp then []
    else if cfg.lambda && !cfg.dynamo && name == "apigateway.ts" &&
        strIncludes rp "infrastructure/src/resources" then
      [(rp, apigwDynamoRewrite content)]
    else if skipDynamo cfg rp then []
    else if skipS3 cfg rp then []
    else if skipCognito cfg rp then []
    else
      let sub := substitutePlaceholders cfg.projectName content
      if name == "index.ts" && strIncludes rp "packages/constants/src" then
        [(rp, generateConstantsFile cfg.projectName cfg.domain cfg.environments
          cfg.api cfg.lambda cfg.dynamo cfg.s3 cfg.cognito)]
      else if name == "README.md" then
        [(rp, generateReadme cfg.projectName cfg.api cfg.lambda cfg.dynamo cfg.s3 cfg.cognito)]
      else if name == "Pulumi.yaml" && strIncludes rp "infrastructure" then
        (rp, sub) :: cfg.environments.map fun env =>
          (joinRel relDir ("Pulumi." ++ env ++ ".yaml"),
            generatePulumiEnvConfig cfg.projectName env)
      else if name == "index.ts" && strIncludes rp "infrastructure/src" &&
          !(strIncludes rp "infrastructure/src/components") &&
          !(strIncludes rp "infrastructure/src/resources") then
        [(rp, infraIndexRewrite cfg.lambda cfg.dynamo cfg.s3 cfg.cognito sub)]
      else
        [(rp, sub)]
  | .dir name children =>
    let rp := joinRel relDir name
    if skipLambda cfg rp then []
    else if skipDynamo cfg rp then []
    else if skipS3 cfg rp then []
    else if skipCognito cfg rp then []
    else children.attach.flatMap fun c => copyEntry cfg rp c.1
  termination_by t => sizeOf t
  decreasing_by
    simp only [FsTree.dir.sizeOf_spec]
    have := List.sizeOf_lt_of_mem c.2
    omega

/-- Verbatim `template/infrastructure/src/index.ts`, external/resource imports (lines 1-9). -/
def indexTsHeadBlock : String :=
  "/* ---------- External ---------- */\n" ++
  "import \x7b Config \x7d from \x27@pulumi/pulumi\x27;\n" ++
  "import \x7b join \x7d from \x27node:path\x27;\n" ++
  "\n" ++
  "/* ---------- Resources ---------- */\n" ++
  "import \x7b CertificateResource \x7d from \x27./resources/certificate\x27;\n" ++
  "import \x7b S3Website \x7d from \x27./resources/s3-website\x27;\n" ++
  "import \x7b DNSResource \x7d from \x27./resources/dns\x27;\n" ++
  "\n"

/-- Verbatim `template/infrastructure/src/index.ts`, the backend-component import block (lines 10-12). -/
def indexTsComponentsBlock : String :=
  "/* ---------- Components ---------- */\n" ++
  "import \x7b BackendComponent \x7d from \x27./components/backend\x27;\n" ++
  "\n"

/-- Verbatim `template/infrastructure/src/index.ts`, constants/configuration/certificate/website/DNS sections (lines 13-46). -/
def indexTsMidBlock : String :=
  "/* ---------- Constants ---------- */\n" ++
  "import \x7b DOMAIN_BASE, DOMAINS, type Environment \x7d from \x27@\x7b\x7bPROJECT_NAME\x7d\x7d/constants\x27;\n" ++
  "\n" ++
  "/* ---------- Configuration ---------- */\n" ++
  "const config = new Config();\n" ++
  "const environment = (config.get(\x27environment\x27) || \x27production\x27) as Environment;\n" ++
  "\n" ++
  "/* ---------- Certificate (Cloudflare + ACM) ---------- */\n" ++
  "const certificate = new CertificateResource(`certificate-$\x7benvironment\x7d`, \x7b domain: DOMAIN_BASE \x7d);\n" ++
  "\n" ++
  "/* ---------- S3 Website ---------- */\n" ++
  "const landingPageDomain = DOMAINS[\x27landing-page\x27][environment];\n" ++
  "const website = new S3Website(`website-$\x7benvironment\x7d`, \x7b\n" ++
  "  path: join(require.resolve(\x27@\x7b\x7bPROJECT_NAME\x7d\x7d/landing-page\x27), \x27../ssg\x27),\n" ++
  "  domain: landingPageDomain,\n" ++
  "  environment,\n" ++
  "\x7d);\n" ++
  "\n" ++
  "/* ---------- DNS Records ---------- */\n" ++
  "// Website DNS\n" ++
  "const websiteSubdomain = landingPageDomain === DOMAIN_BASE ? \x27@\x27 : landingPageDomain.replace(`.$\x7bDOMAIN_BASE\x7d`, \x27\x27);\n" ++
  "new DNSResource(\n" ++
  "  `website-dns-$\x7benvironment\x7d`,\n" ++
  "  \x7b\n" ++
  "    environment,\n" ++
  "    subdomain: websiteSubdomain,\n" ++
  "    name: \x27website\x27,\n" ++
  "    cname: website.website.websiteEndpoint,\n" ++
  "    type: \x27CNAME\x27,\n" ++
  "    comment: \x27Main website\x27,\n" ++
  "  \x7d,\n" ++
  "  \x7b dependsOn: [website.website] \x7d,\n" ++
  ");\n" ++
  "\n"

/-- Verbatim `template/infrastructure/src/index.ts`, the backend instantiation block (lines 47-56). -/
def indexTsBackendBlock : String :=
  "/* ---------- Backend ---------- */\n" ++
  "const backend = new BackendComponent(\n" ++
  "  `backend-$\x7benvironment\x7d`,\n" ++
  "  \x7b\n" ++
  "    environment,\n" ++
  "    certificateArn: certificate.acm.arn,\n" ++
  "  \x7d,\n" ++
  "  \x7b dependsOn: [certificate.acm] \x7d,\n" ++
  ");\n" ++
  "\n"

/-- Verbatim `template/infrastructure/src/index.ts`, the exports block (lines 57-63). -/
def indexTsExportsBlock : String :=
  "/* ---------- Exports ---------- */\n" ++
  "export const websiteUrl = website.website.websiteEndpoint;\n" ++
  "export const apigwUrl = backend.apigateway.api.apiEndpoint;\n" ++
  "export const dynamoTableName = backend.dynamo.table.name;\n" ++
  "export const s3StorageBucketName = backend.storage.bucket.bucket;\n" ++
  "export const cognitoUserPoolId = backend.cognito.userpool.id;\n" ++
  "export const cognitoUserPoolClientId = backend.cognito.userpoolClient.id;\n"

/-- Verbatim content of the template file
`template/infrastructure/src/index.ts`: the concatenation of its five
blocks. -/
def indexTsTemplate : String :=
  indexTsHeadBlock ++ indexTsComponentsBlock ++ indexTsMidBlock ++
  indexTsBackendBlock ++ indexTsExportsBlock

/-- Verbatim `template/infrastructure/src/resources/apigateway.ts`, external imports. -/
def apigwExternalBlock : String :=
  "/* ---------- External ---------- */\n" ++
  "import \x7b apigatewayv2 \x7d from \x27@pulumi/aws\x27;\n" ++
  "import \x7b ComponentResource, type ComponentResourceOptions, type Output \x7d from \x27@pulumi/pulumi\x27;\n" ++
  "\n"

/-- Verbatim `template/infrastructure/src/resources/apigateway.ts`, the resources import block (with the `DynamoResource` type import). -/
def apigwResourcesBlock : String :=
  "/* ---------- Resources ---------- */\n" ++
  "import \x7b ApiLambdas \x7d from \x27./lambdas\x27;\n" ++
  "import type \x7b DynamoResource \x7d from \x27./dynamo\x27;\n" ++
  "\n"

/-- Verbatim `template/infrastructure/src/resources/apigateway.ts`, the `Props` interface block (with the optional `dynamodb?` prop). -/
def apigwPropsBlock : String :=
  "/* ---------- Types ---------- */\n" ++
  "interface Props \x7b\n" ++
  "  /**\n" ++
  "   * Application environment, such as development, staging, production...\n" ++
  "   */\n" ++
  "  environment: string;\n" ++
  "  certificate: string | Output<string>;\n" ++
  "  domain: string;\n" ++
  "  dynamodb?: DynamoResource;\n" ++
  "\x7d\n" ++
  "\n"

/-- Verbatim `template/infrastructure/src/resources/apigateway.ts`, the resource class body. -/
def apigwClassBlock : String :=
  "export class ApigatewayResource extends ComponentResource \x7b\n" ++
  "  api: apigatewayv2.Api;\n" ++
  "  domain: apigatewayv2.DomainName;\n" ++
  "  lambdas: ApiLambdas;\n" ++
  "\n" ++
  "  public constructor(name: string, props: Props, opts?: ComponentResourceOptions) \x7b\n" ++
  "    super(`$\x7bname\x7d:index:$\x7bprops.environment\x7d`, name, \x7b\x7d, opts);\n" ++
  "\n" ++
  "    const \x7b certificate, environment \x7d = props;\n" ++
  "\n" ++
  "    this.api = new apigatewayv2.Api(\n" ++
  "      `api`,\n" ++
  "      \x7b\n" ++
  "        protocolType: \x27HTTP\x27,\n" ++
  "        corsConfiguration: \x7b\n" ++
  "          allowOrigins: [\x27*\x27],\n" ++
  "          allowMethods: [\x27OPTIONS\x27, \x27GET\x27, \x27POST\x27, \x27PUT\x27, \x27DELETE\x27],\n" ++
  "          allowHeaders: [\x27Content-Type\x27, \x27X-Amz-Date\x27, \x27Authorization\x27, \x27X-Api-Key\x27],\n" ++
  "          exposeHeaders: [\x27Content-Type\x27],\n" ++
  "          maxAge: 300,\n" ++
  "        \x7d,\n" ++
  "      \x7d,\n" ++
  "      \x7b parent: this \x7d,\n" ++
  "    );\n" ++
  "\n" ++
  "    this.domain = new apigatewayv2.DomainName(\n" ++
  "      `domain`,\n" ++
  "      \x7b\n" ++
  "        domainName: props.domain,\n" ++
  "        domainNameConfiguration: \x7b\n" ++
  "          certificateArn: certificate,\n" ++
  "          endpointType: \x27REGIONAL\x27,\n" ++
  "          securityPolicy: \x27TLS_1_2\x27,\n" ++
  "        \x7d,\n" ++
  "      \x7d,\n" ++
  "      \x7b parent: this \x7d,\n" ++
  "    );\n" ++
  "\n" ++
  "    this.lambdas = new ApiLambdas(\n" ++
  "      `lambdas`,\n" ++
  "      \x7b\n" ++
  "        environment,\n" ++
  "        api: this.api,\n" ++
  "      \x7d,\n" ++
  "      \x7b dependsOn: [this.api], parent: this \x7d,\n" ++
  "    );\n" ++
  "\n" ++
  "    const allLambdas = Object.entries(this.lambdas.lambdas).flatMap(([, \x7b lambda \x7d]) =>\n" ++
  "      lambda.integrations.flatMap((\x7b integration, route, permission \x7d) => [\n" ++
  "        integration,\n" ++
  "        route,\n" ++
  "        permission,\n" ++
  "      ])\n" ++
  "    );\n" ++
  "\n" ++
  "    const stage = new apigatewayv2.Stage(\n" ++
  "      `stage`,\n" ++
  "      \x7b\n" ++
  "        apiId: this.api.id,\n" ++
  "        autoDeploy: true,\n" ++
  "        name: \x27$default\x27,\n" ++
  "      \x7d,\n" ++
  "      \x7b\n" ++
  "        parent: this,\n" ++
  "        dependsOn: [...allLambdas], // ensures all lambdas are created. if there\x27s a dynamo dependency, it should also be added in this dependency list\n" ++
  "      \x7d,\n" ++
  "    );\n" ++
  "\n" ++
  "    new apigatewayv2.ApiMapping(\n" ++
  "      `domain-mapping`,\n" ++
  "      \x7b\n" ++
  "        apiId: this.api.id,\n" ++
  "        stage: stage.id,\n" ++
  "        domainName: this.domain.id,\n" ++
  "      \x7d,\n" ++
  "      \x7b dependsOn: [this.domain, stage], parent: this \x7d,\n" ++
  "    );\n" ++
  "  \x7d\n" ++
  "\x7d\n"

/-- Verbatim content of the template file
`template/infrastructure/src/resources/apigateway.ts`: the
concatenation of its four blocks. -/
def apigatewayTsTemplate : String :=
  apigwExternalBlock ++ apigwResourcesBlock ++ apigwPropsBlock ++ apigwClassBlock

/-! ## Basic lemmas about the string primitives -/

/-- A nonempty prefix occurs as a substring. -/
theorem containsStr_of_prefix {n h : List Char} (hpre : n <+: h) (hne : n ≠ []) :
    containsStr n h = true := by
  cases h with
  | nil =>
    rcases hpre with ⟨z, hz⟩
    simp only [List.nil_eq, List.append_eq_nil] at hz
    exact absurd hz.1 hne
  | cons c t =>
    simp only [containsStr, Bool.or_eq_true]
    exact Or.inl (List.isPrefixOf_iff_prefix.mpr hpre)

/-- If a pattern does not occur, the position search fails from any
starting index. -/
theorem idxOfAux_eq_none {n l : List Char} (h : containsStr n l = false) :
    ∀ i, idxOfAux n l i = none := by
  induction l with
  | nil =>
    intro i
    simp only [containsStr] at h
    simp [idxOfAux, h]
  | cons c t ih =>
    intro i
    simp only [containsStr, Bool.or_eq_false_iff] at h
    simp only [idxOfAux, h.1, if_false]
    exact ih h.2 (i + 1)

/-- A failed global literal replacement is the identity (the worker). -/
theorem replaceAllAux_no_match {n r : List Char} (fuel : Nat) {l : List Char}
    (h : containsStr n l = false) : replaceAllAux n r fuel l = l := by
  induction fuel generalizing l with
  | zero => rfl
  | succ fuel ih =>
    cases l with
    | nil => rfl
    | cons c t =>
      simp only [containsStr, Bool.or_eq_false_iff] at h
      simp [replaceAllAux, h.1, ih h.2]

/-- A failed global literal replacement is the identity. -/
theorem replaceAll_no_match {n s : String} (r : String)
    (h : strIncludes s n = false) : replaceAll n r s = s := by
  unfold replaceAll
  rw [replaceAllAux_no_match _ h]

/-- `removeFromThrough` with a missing opening anchor is the identity. -/
theorem removeFromThrough_no_anchor {a s : String} (m e : String)
    (h : strIncludes s a = false) : removeFromThrough a m e s = s := by
  unfold removeFromThrough idxOf?
  rw [idxOfAux_eq_none h 0]

/-- `removeUpTo` with a missing opening anchor is the identity. -/
theorem removeUpTo_no_anchor {a s : String} (e : String)
    (h : strIncludes s a = false) : removeUpTo a e s = s := by
  unfold removeUpTo idxOf?
  rw [idxOfAux_eq_none h 0]

/-! ## Claim theorems -/

/-- C1 (counterexample): with `--full --except=dynamo --dynamo`, the
explicit `--dynamo` flag is present on the command line, yet the
feature resolves to disabled — the exclusion list, not the explicit
flag, has the highest precedence (cli.js line 113 precedes line 115). -/
theorem claim1_counterexample :
    (["--full", "--except=dynamo", "--dynamo"] : List String).contains "--dynamo" = true ∧
    (exceptFlags ["--full", "--except=dynamo", "--dynamo"]).contains "dynamo" = true ∧
    parseFlag ["--full", "--except=dynamo", "--dynamo"] "--dynamo" "dynamo" = some false := by
  refine ⟨by decide, by decide, by decide⟩

/-- C1 (amended): feature-flag resolution precedence, highest first:
(1) membership in the `--except` exclusion list forces the feature off,
even when the explicit flag is on the command line; (2) the explicit
flag forces it on; (3) `--full` forces it on; (4) `--skip` forces the
fixed default (disabled); (5) otherwise the feature is undetermined and
must be prompted. -/
theorem parseFlag_precedence (args : List String) (flagName key : String) :
    ((exceptFlags args).contains key = true → parseFlag args flagName key = some false) ∧
    ((exceptFlags args).contains key = false → args.contains flagName = true →
      parseFlag args flagName key = some true) ∧
    ((exceptFlags args).contains key = false → args.contains flagName = false →
      args.contains "--full" = true → parseFlag args flagName key = some true) ∧
    ((exceptFlags args).contains key = false → args.contains flagName = false →
      args.contains "--full" = false → args.contains "--skip" = true →
      parseFlag args flagName key = some false) ∧
    ((exceptFlags args).contains key = false → args.contains flagName = false →
      args.contains "--full" = false → args.contains "--skip" = false →
      parseFlag args flagName key = none) := by
  refine ⟨?_, ?_, ?_, ?_, ?_⟩ <;>
    (intros; simp_all [parseFlag, defaultValues])

/-- Witness for the amended C1 precedence at concrete inputs. -/
theorem claim1_witness :
    parseFlag ["--full", "-e", "s3"] "--s3" "s3" = some false ∧
    parseFlag ["--skip", "--cognito"] "--cognito" "cognito" = some true ∧
    parseFlag ["--skip"] "--cognito" "cognito" = some false ∧
    parseFlag ([] : List String) "--dynamo" "dynamo" = none := by
  refine ⟨(parseFlag_precedence _ _ _).1 (by decide),
    (parseFlag_precedence _ _ _).2.1 (by decide) (by decide),
    (parseFlag_precedence _ _ _).2.2.2.1 (by decide) (by decide) (by decide) (by decide),
    (parseFlag_precedence _ _ _).2.2.2.2 (by decide) (by decide) (by decide) (by decide)⟩

/-- C9: with `--full -e s3` (or `--full --except s3`), the value `s3`
consumed by the exclusion flag is also picked up as the positional
project name: the positional scan (cli.js lines 156-160) excludes only
the `--domain` value index and `-`-prefixed arguments, not values
consumed by `--except`/`-e`. -/
theorem exceptValue_becomes_project_name :
    customProjectName ["--full", "-e", "s3"] = some "s3" ∧
    customProjectName ["--full", "--except", "s3"] = some "s3" ∧
    exceptFlags ["--full", "-e", "s3"] = ["s3"] ∧
    exceptFlags ["--full", "--except", "s3"] = ["s3"] ∧
    (parseDomainFlag ["--full", "-e", "s3"]).2 = none := by
  refine ⟨by decide, by decide, by decide, by decide, by decide⟩

/-- C10: whenever `--skip` or `--full` is present, the environments
question is never pushed onto the prompt list, and the resolved
environments sequence is exactly `["production"]`, whatever the
environments feature flag and whatever answer the prompt collaborator
would have produced. -/
theorem skip_full_suppress_environments (args : List String) (wantEnvs incl : Bool)
    (raw : Option String)
    (h : args.contains "--skip" = true ∨ args.contains "--full" = true) :
    envQuestionPushed args = false ∧
    resolvedEnvironments incl (environmentsAnswer args wantEnvs raw) = ["production"] := by
  have hq : envQuestionPushed args = false := by
    cases hs : args.contains "--skip" <;> cases hf : args.contains "--full" <;>
      simp_all [envQuestionPushed]
  refine ⟨hq, ?_⟩
  simp [environmentsAnswer, hq, resolvedEnvironments]

/-- Witness for C10 at `--full --environments` with a pending answer. -/
theorem claim10_witness :
    envQuestionPushed ["--full", "--environments"] = false ∧
    resolvedEnvironments true
      (environmentsAnswer ["--full", "--environments"] true (some "dev,prod")) =
      ["production"] :=
  skip_full_suppress_environments ["--full", "--environments"] true true (some "dev,prod")
    (Or.inr (by decide))

/-! ## Project-name normalization (C3) -/

/-- Every character emitted by the run-collapsing pass is a kept
alphanumeric or a hyphen. -/
theorem kebabRunsAux_chars (b : Bool) (l : List Char) :
    ∀ c ∈ kebabRunsAux b l, isKebabChar c = true := by
  induction l generalizing b with
  | nil => intro c hc; cases b <;> simp [kebabRunsAux] at hc
  | cons d t ih =>
    intro c hc
    cases hd : isLowerAlnum d with
    | true =>
      simp only [kebabRunsAux, hd, if_true] at hc
      rcases List.mem_cons.mp hc with rfl | hc
      · simp [isKebabChar, hd]
      · exact ih false c hc
    | false =>
      cases b with
      | true =>
        simp [kebabRunsAux, hd] at hc
        exact ih true c hc
      | false =>
        simp [kebabRunsAux, hd] at hc
        rcases hc with rfl | hc
        · simp [isKebabChar]
        · exact ih true c hc

/-- Dropping a leading run keeps membership. -/
theorem mem_dropWhile_of_mem (p : Char → Bool) {l : List Char} {c : Char}
    (hc : c ∈ l.dropWhile p) : c ∈ l := by
  induction l with
  | nil => simp at hc
  | cons d t ih =>
    cases hd : p d with
    | true =>
      simp only [List.dropWhile, hd] at hc
      exact List.mem_cons_of_mem d (ih hc)
    | false =>
      simp only [List.dropWhile, hd] at hc
      exact hc

/-- A member that the predicate rejects survives `dropWhile`. -/
theorem mem_dropWhile_of_no (p : Char → Bool) {l : List Char} {c : Char}
    (hc : c ∈ l) (hp : p c = false) : c ∈ l.dropWhile p := by
  induction l with
  | nil => simp at hc
  | cons d t ih =>
    cases hd : p d with
    | true =>
      simp only [List.dropWhile, hd]
      rcases List.mem_cons.mp hc with rfl | hc
      · rw [hd] at hp; cases hp
      · exact ih hc
    | false =>
      simp only [List.dropWhile, hd]
      exact hc

/-- The head surviving `dropWhile` fails the predicate. -/
theorem head?_dropWhile_no (p : Char → Bool) (l : List Char) :
    ∀ c, (l.dropWhile p).head? = some c → p c = false := by
  induction l with
  | nil => intro c hc; simp at hc
  | cons d t ih =>
    intro c hc
    cases hd : p d with
    | true =>
      simp only [List.dropWhile, hd] at hc
      exact ih c hc
    | false =>
      simp only [List.dropWhile, hd, List.head?_cons, Option.some.injEq] at hc
      rw [← hc]
      exact hd

/-- Characters of the trimmed list come from the untrimmed list. -/
theorem mem_of_mem_trimDashes {l : List Char} {c : Char} (hc : c ∈ trimDashes l) :
    c ∈ l := by
  unfold trimDashes at hc
  rw [List.mem_reverse] at hc
  have h1 := mem_dropWhile_of_mem _ hc
  rw [List.mem_reverse] at h1
  exact mem_dropWhile_of_mem _ h1

/-- A non-hyphen member survives the trimming at both ends. -/
theorem mem_trimDashes_of_no {l : List Char} {c : Char} (hc : c ∈ l)
    (hne : (c == '-') = false) : c ∈ trimDashes l := by
  unfold trimDashes
  rw [List.mem_reverse]
  refine mem_dropWhile_of_no _ ?_ hne
  rw [List.mem_reverse]
  exact mem_dropWhile_of_no _ hc hne

/-- An alphanumeric character of the input survives the run-collapsing
pass verbatim. -/
theorem mem_kebabRunsAux_of_alnum {l : List Char} {c : Char} (hc : c ∈ l)
    (ha : isLowerAlnum c = true) : ∀ b, c ∈ kebabRunsAux b l := by
  induction l with
  | nil => simp at hc
  | cons d t ih =>
    intro b
    cases hd : isLowerAlnum d with
    | true =>
      simp only [kebabRunsAux, hd, if_true]
      rcases List.mem_cons.mp hc with rfl | hc
      · exact List.mem_cons_self _ _
      · exact List.mem_cons_of_mem d (ih hc false)
    | false =>
      have hct : c ∈ t := by
        rcases List.mem_cons.mp hc with rfl | hc
        · rw [hd] at ha; cases ha
        · exact hc
      cases b with
      | true =>
        simp [kebabRunsAux, hd]
        exact ih hct true
      | false =>
        simp [kebabRunsAux, hd]
        exact Or.inr (ih hct true)

/-- C3 (counterexample): `"!!!"` is accepted as a positional project
name by the argument scan, yet it normalizes to the empty string — the
claimed non-emptiness invariant fails. -/
theorem claim3_counterexample :
    customProjectName ["!!!"] = some "!!!" ∧ kebabify "!!!" = "" := by
  refine ⟨by decide, by decide⟩

/-- C3 (amended): for every raw project name, the normalized name uses
only `[a-z0-9-]`, carries no leading or trailing hyphen, and is
non-empty whenever the raw name contains at least one character that
lowercases to an ASCII alphanumeric; raw names without such a
character (accepted for instance as positional arguments) normalize to
the empty string.  In particular `"My App!!"` normalizes to
`"my-app"`. -/
theorem kebabify_invariants (raw : String) :
    (∀ c ∈ (kebabify raw).data, isKebabChar c = true) ∧
    (∀ c, (kebabify raw).data.head? = some c → c ≠ '-') ∧
    (∀ c, (kebabify raw).data.getLast? = some c → c ≠ '-') ∧
    ((∃ c ∈ raw.data, isLowerAlnum c.toLower = true) → kebabify raw ≠ "") ∧
    kebabify "My App!!" = "my-app" := by
  refine ⟨?_, ?_, ?_, ?_, by decide⟩
  · intro c hc
    simp only [kebabify] at hc
    exact kebabRunsAux_chars false _ c (mem_of_mem_trimDashes hc)
  · intro c hc hdash
    subst hdash
    simp only [kebabify, trimDashes] at hc
    rw [List.head?_reverse] at hc
    set A := (kebabRunsAux false (raw.data.map Char.toLower)).dropWhile (fun x => x == '-')
      with hA
    set B := A.reverse.dropWhile (fun x => x == '-') with hB
    have hBne : B ≠ [] := by
      intro h0
      rw [h0] at hc
      simp at hc
    obtain ⟨t, ht⟩ := List.dropWhile_suffix (l := A.reverse) (fun x => x == '-')
    have hlast : (A.reverse).getLast? = B.getLast? := by
      rw [← hB] at ht
      rw [← ht]
      exact List.getLast?_append_of_ne_nil t hBne
    rw [← hlast, List.getLast?_reverse] at hc
    have := head?_dropWhile_no (fun x => x == '-') _ '-' hc
    simp at this
  · intro c hc hdash
    subst hdash
    simp only [kebabify, trimDashes] at hc
    rw [List.getLast?_reverse] at hc
    have := head?_dropWhile_no (fun x => x == '-') _ '-' hc
    simp at this
  · rintro ⟨c, hc, ha⟩
    have h1 : c.toLower ∈ raw.data.map Char.toLower := List.mem_map_of_mem _ hc
    have h2 : c.toLower ∈ kebabRunsAux false (raw.data.map Char.toLower) :=
      mem_kebabRunsAux_of_alnum h1 ha false
    have hne : (c.toLower == '-') = false := by
      cases hb : c.toLower == '-'
      · rfl
      · exfalso
        have : c.toLower = '-' := by simpa using hb
        rw [this] at ha
        simp [isLowerAlnum] at ha
    have h3 : c.toLower ∈ trimDashes (kebabRunsAux false (raw.data.map Char.toLower)) :=
      mem_trimDashes_of_no h2 hne
    intro hemp
    unfold kebabify at hemp
    have : trimDashes (kebabRunsAux false (raw.data.map Char.toLower)) = [] := by
      have := congrArg String.data hemp
      simpa using this
    rw [this] at h3
    simp at h3

/-- Witness for the amended C3 at the concrete raw name `"My App!!"`. -/
theorem claim3_witness :
    (∀ c ∈ (kebabify "My App!!").data, isKebabChar c = true) ∧ kebabify "My App!!" ≠ "" :=
  ⟨(kebabify_invariants "My App!!").1,
    (kebabify_invariants "My App!!").2.2.2.1 ⟨'M', by decide, by decide⟩⟩

/-! ## Constants generator domain tables (C5) -/

/-- C5: the constants generator's resolved domain tables follow the
fixed naming convention: the landing-page table maps `production` to
the bare base domain and any other environment `env` to
`env.<base>`; the api table (present in the emitted `DOMAINS` object
exactly when the api feature is enabled) maps `production` to
`api.<base>` and other environments to `api-env.<base>`; the apigw
table (present exactly when the lambda feature is enabled) follows the
same pattern with prefix `apigw`; with environments `["production"]`
each table has exactly one entry. -/
theorem constants_domain_tables (base : String) (envs : List String)
    (api lambda : Bool) :
    (∀ env ∈ envs,
      (env, if env == "production" then base else env ++ "." ++ base) ∈
        landingPageDomainTable base envs) ∧
    ((landingPageDomainTable base envs).map Prod.fst = envs) ∧
    (∀ env ∈ envs,
      (env, if env == "production" then "api." ++ base else "api-" ++ env ++ "." ++ base) ∈
        apiDomainTable base envs) ∧
    (∀ env ∈ envs,
      (env, if env == "production" then "apigw." ++ base else "apigw-" ++ env ++ "." ++ base) ∈
        apigwDomainTable base envs) ∧
    (∀ tbl, ("api", tbl) ∈ domainsTables base envs api lambda → api = true) ∧
    (api = true → ("api", apiDomainTable base envs) ∈ domainsTables base envs api lambda) ∧
    (∀ tbl, ("apigw", tbl) ∈ domainsTables base envs api lambda → lambda = true) ∧
    (lambda = true →
      ("apigw", apigwDomainTable base envs) ∈ domainsTables base envs api lambda) ∧
    (landingPageDomainTable base ["production"]).length = 1 ∧
    (apiDomainTable base ["production"]).length = 1 ∧
    (apigwDomainTable base ["production"]).length = 1 := by
  refine ⟨?_, ?_, ?_, ?_, ?_, ?_, ?_, ?_, by simp [landingPageDomainTable],
    by simp [apiDomainTable], by simp [apigwDomainTable]⟩
  · intro env henv
    exact List.mem_map_of_mem _ henv
  · simp only [landingPageDomainTable, List.map_map]
    induction envs with
    | nil => rfl
    | cons e t ih => simpa using ih
  · intro env henv
    exact List.mem_map_of_mem _ henv
  · intro env henv
    exact List.mem_map_of_mem _ henv
  · intro tbl htbl
    cases api with
    | true => rfl
    | false =>
      cases lambda <;> simp [domainsTables] at htbl
  · intro ha
    cases lambda <;> simp [domainsTables, ha]
  · intro tbl htbl
    cases lambda with
    | true => rfl
    | false =>
      cases api <;> simp [domainsTables] at htbl
  · intro hl
    cases api <;> simp [domainsTables, hl]

/-- Witness for C5 at a concrete base domain and environment list. -/
theorem claim5_witness :
    ("development", "development.acme.com") ∈
      landingPageDomainTable "acme.com" ["development", "staging", "production"] ∧
    ("production", "acme.com") ∈
      landingPageDomainTable "acme.com" ["development", "staging", "production"] ∧
    ("api", apiDomainTable "acme.com" ["production"]) ∈
      domainsTables "acme.com" ["production"] true true := by
  have h := constants_domain_tables "acme.com" ["development", "staging", "production"]
    true true
  have h2 := constants_domain_tables "acme.com" ["production"] true true
  refine ⟨?_, ?_, h2.2.2.2.2.2.1 rfl⟩
  · have := h.1 "development" (by decide)
    simpa using this
  · have := h.1 "production" (by decide)
    simpa using this

/-! ## README generator (C6) -/

/-- C6: the generated README lists a backend resource bullet iff the
corresponding feature is enabled; its infrastructure section is empty
iff no backend feature is enabled; and for the configuration with
dynamo disabled and every other feature enabled, the full generated
README does not contain the DynamoDB bullet. -/
theorem readme_lists_only_enabled (api lambda dynamo s3 cognito : Bool) :
    ((dynamoBullet ∈ backendResources cognito dynamo s3 lambda) ↔ dynamo = true) ∧
    ((cognitoBullet ∈ backendResources cognito dynamo s3 lambda) ↔ cognito = true) ∧
    ((s3Bullet ∈ backendResources cognito dynamo s3 lambda) ↔ s3 = true) ∧
    ((lambdaBullet ∈ backendResources cognito dynamo s3 lambda) ↔ lambda = true) ∧
    (backendSection lambda dynamo s3 cognito = "" ↔
      (lambda || dynamo || s3 || cognito) = false) ∧
    strIncludes (generateReadme "acme" true true false true true) dynamoBullet = false := by
  refine ⟨?_, ?_, ?_, ?_, ?_, by decide⟩ <;>
    cases cognito <;> cases dynamo <;> cases s3 <;> cases lambda <;>
      simp [backendResources, backendSection, cognitoBullet, dynamoBullet, s3Bullet,
        lambdaBullet] <;> decide

/-- Witness for C6 at a concrete flag assignment. -/
theorem claim6_witness :
    dynamoBullet ∉ backendResources true false true true ∧
    backendSection false false false false = "" := by
  constructor
  · intro h
    have h2 := (readme_lists_only_enabled true true false true true).1.mp h
    cases h2
  · exact (readme_lists_only_enabled false false false false false).2.2.2.2.1.mpr rfl

/-! ## Structural-rewrite miss safety (C7) -/

/-- C7: every structural rewrite primitive is total, and when its
opening textual anchor is not found in the input, the edit leaves the
content unchanged: the literal global replacement, both anchored span
removals, and in particular the `apigateway.ts` dynamo rewrite, whose
two edits each fall back to the identity when their patterns are
absent. -/
theorem structural_rewrite_miss_safe (n r a m e s : String) :
    (strIncludes s n = false → replaceAll n r s = s) ∧
    (strIncludes s a = false → removeFromThrough a m e s = s) ∧
    (strIncludes s a = false → removeUpTo a e s = s) ∧
    (strIncludes s "import type \x7b DynamoResource \x7d from \x27./dynamo\x27;\n" = false →
      strIncludes s "  dynamodb: DynamoResource;\n" = false →
      apigwDynamoRewrite s = s) := by
  refine ⟨fun h => replaceAll_no_match r h, fun h => removeFromThrough_no_anchor m e h,
    fun h => removeUpTo_no_anchor e h, fun h1 h2 => ?_⟩
  unfold apigwDynamoRewrite
  rw [replaceAll_no_match _ h1, replaceAll_no_match _ h2]

/-- Witness for C7: anchors absent from a small concrete content leave
every rewrite as the identity. -/
theorem claim7_witness :
    replaceAll "export const apigwUrl = backend.apigateway.api.apiEndpoint;\n" ""
      "const x = 1;\n" = "const x = 1;\n" ∧
    removeUpTo "/* ---------- Backend ---------- */" "/* ---------- Exports"
      "const x = 1;\n" = "const x = 1;\n" ∧
    removeFromThrough "/* ---------- Components ---------- */"
      "import \x7b BackendComponent \x7d" "\n\n" "const x = 1;\n" = "const x = 1;\n" ∧
    apigwDynamoRewrite "const x = 1;\n" = "const x = 1;\n" := by
  refine ⟨(structural_rewrite_miss_safe
      "export const apigwUrl = backend.apigateway.api.apiEndpoint;\n" "" "a" "m" "e"
      "const x = 1;\n").1 (by decide),
    (structural_rewrite_miss_safe "x" "" "/* ---------- Backend ---------- */"
      "m" "/* ---------- Exports" "const x = 1;\n").2.2.1 (by decide),
    (structural_rewrite_miss_safe "x" "" "/* ---------- Components ---------- */"
      "import \x7b BackendComponent \x7d" "\n\n" "const x = 1;\n").2.1 (by decide),
    (structural_rewrite_miss_safe "x" "" "a" "m" "e" "const x = 1;\n").2.2.2
      (by decide) (by decide)⟩

/-! ## Substitution totality (C2) -/

/-- Unfolding equation for the replacement worker on a cons cell. -/
theorem replaceAllAux_cons (n r : List Char) (fuel : Nat) (c : Char) (t : List Char) :
    replaceAllAux n r (fuel + 1) (c :: t) =
      if n.isPrefixOf (c :: t) then
        r ++ replaceAllAux n r fuel ((c :: t).drop n.length)
      else c :: replaceAllAux n r fuel t := rfl

/-- Prepending characters foreign to the pattern does not create an
occurrence: the pattern occurs in `sep ++ o` iff it occurs in `o`,
when no character of `sep` belongs to the pattern. -/
theorem containsStr_append_disjoint (n : List Char) (hn : n ≠ []) :
    ∀ sep, (∀ c ∈ sep, c ∉ n) → ∀ o,
      containsStr n (sep ++ o) = containsStr n o := by
  intro sep
  induction sep with
  | nil => intro _ o; rfl
  | cons d ds ih =>
    intro hd o
    have hdn : d ∉ n := hd d (List.mem_cons_self d ds)
    have hpre : n.isPrefixOf (d :: (ds ++ o)) = false := by
      cases n with
      | nil => exact absurd rfl hn
      | cons n0 nt =>
        have h0 : (n0 == d) = false := by
          rw [beq_eq_false_iff_ne]
          intro h0
          exact hdn (h0 ▸ List.mem_cons_self n0 nt)
        simp [List.isPrefixOf_cons₂, h0]
    show (n.isPrefixOf (d :: (ds ++ o)) || containsStr n (ds ++ o)) = containsStr n o
    rw [hpre, ih (fun c hc => hd c (List.mem_cons_of_mem d hc)) o]
    simp

/-- The replacement worker never leaves an occurrence of the pattern
behind, provided the replacement text is non-empty and shares no
character with the pattern; moreover any residual pattern-tail prefix
of the output was already a prefix of the input. -/
theorem replaceAllAux_totality (n r : List Char) (hn : n ≠ []) (hr : r ≠ [])
    (hd : ∀ c ∈ r, c ∉ n) :
    ∀ fuel l, l.length ≤ fuel →
      containsStr n (replaceAllAux n r fuel l) = false ∧
      (∀ k, 1 ≤ k → k < n.length →
        (n.drop k) <+: (replaceAllAux n r fuel l) → (n.drop k) <+: l) := by
  intro fuel
  induction fuel with
  | zero =>
    intro l hl
    have h0 : l = [] := List.length_eq_zero.mp (Nat.le_zero.mp hl)
    subst h0
    refine ⟨?_, fun k _ _ hpre => hpre⟩
    show n.isEmpty = false
    simpa using hn
  | succ fuel ih =>
    intro l hl
    cases l with
    | nil =>
      refine ⟨?_, fun k _ _ hpre => hpre⟩
      show n.isEmpty = false
      simpa using hn
    | cons c t =>
      have ht : t.length ≤ fuel := by
        simp only [List.length_cons] at hl
        omega
      have hn1 : 1 ≤ n.length := by
        cases n with
        | nil => exact absurd rfl hn
        | cons _ _ => simp
      cases hp : n.isPrefixOf (c :: t) with
      | true =>
        have hrest : ((c :: t).drop n.length).length ≤ fuel := by
          rw [List.length_drop]
          simp only [List.length_cons]
          omega
        obtain ⟨ih1, ih2⟩ := ih _ hrest
        constructor
        · rw [replaceAllAux_cons, if_pos hp, containsStr_append_disjoint n hn r hd]
          exact ih1
        · intro k hk1 hk2 hpre
          rw [replaceAllAux_cons, if_pos hp] at hpre
          exfalso
          have hkd : n.drop k = n[k] :: n.drop (k + 1) := List.drop_eq_getElem_cons hk2
          have hdMem : n[k] ∈ n := by
            have : n[k] ∈ n.drop k := hkd ▸ List.mem_cons_self _ _
            exact List.mem_of_mem_drop this
          cases r with
          | nil => exact absurd rfl hr
          | cons r0 rt =>
            rw [hkd] at hpre
            have hhead : n[k] = r0 := (List.cons_prefix_cons.mp hpre).1
            exact hd r0 (List.mem_cons_self r0 rt) (hhead ▸ hdMem)
      | false =>
        obtain ⟨ih1, ih2⟩ := ih t ht
        have hnp : ¬ (n.isPrefixOf (c :: t) = true) := by simp [hp]
        constructor
        · rw [replaceAllAux_cons, if_neg hnp]
          show (n.isPrefixOf (c :: replaceAllAux n r fuel t) ||
            containsStr n (replaceAllAux n r fuel t)) = false
          rw [ih1, Bool.or_false]
          obtain ⟨n0, nt, rfl⟩ : ∃ n0 nt, n = n0 :: nt := by
            cases n with
            | nil => exact absurd rfl hn
            | cons a b => exact ⟨a, b, rfl⟩
          cases hbeq : (n0 == c) with
          | false => simp [List.isPrefixOf_cons₂, hbeq]
          | true =>
            cases hnt : nt.isPrefixOf (replaceAllAux (n0 :: nt) r fuel t) with
            | false => simp [List.isPrefixOf_cons₂, hnt]
            | true =>
              exfalso
              have hc0 : n0 = c := by simpa using hbeq
              cases nt with
              | nil =>
                have hpt : (n0 :: ([] : List Char)).isPrefixOf (c :: t) = true := by
                  simp [List.isPrefixOf_cons₂, hbeq]
                rw [hpt] at hp
                cases hp
              | cons m1 mt =>
                have hp2 : (m1 :: mt) <+: replaceAllAux (n0 :: m1 :: mt) r fuel t :=
                  List.isPrefixOf_iff_prefix.mp hnt
                have hlen : 1 < (n0 :: m1 :: mt).length := by simp
                have hp3 := ih2 1 (le_refl 1) hlen hp2
                have hpt : (n0 :: m1 :: mt) <+: (c :: t) :=
                  List.cons_prefix_cons.mpr ⟨hc0, hp3⟩
                have hfin := List.isPrefixOf_iff_prefix.mpr hpt
                rw [hfin] at hp
                cases hp
        · intro k hk1 hk2 hpre
          rw [replaceAllAux_cons, if_neg hnp] at hpre
          have hkd : n.drop k = n[k] :: n.drop (k + 1) := List.drop_eq_getElem_cons hk2
          rw [hkd] at hpre ⊢
          obtain ⟨hhead, htail⟩ := List.cons_prefix_cons.mp hpre
          by_cases hk3 : k + 1 < n.length
          · have := ih2 (k + 1) (by omega) hk3 htail
            exact List.cons_prefix_cons.mpr ⟨hhead, this⟩
          · have hnil : n.drop (k + 1) = [] := List.drop_eq_nil_of_le (by omega)
            rw [hnil]
            exact List.cons_prefix_cons.mpr ⟨hhead, List.nil_prefix⟩

/-- Every character of the placeholder token is outside the normalized
project-name alphabet. -/
theorem placeholder_chars_not_kebab :
    ∀ c ∈ placeholderToken.data, isKebabChar c = false := by
  decide

/-- C2: substitution totality.  For every file content and every valid
resolved project name (non-empty, normalized alphabet `[a-z0-9-]`), the
substituted content contains no occurrence of `{{PROJECT_NAME}}`; each
occurrence is replaced exactly with the project name (sampled on a real
template line); the template `apigateway.ts` — the one file whose
special branch (cli.js 611-619) writes raw content without running the
substitution — contains no occurrence of the placeholder to begin
with; and the derived files (constants module, README, per-environment
infrastructure config), which overwrite their substituted template
copies, contain no occurrence either (checked at a concrete valid
config). -/
theorem substitution_totality (name content : String)
    (hne : name ≠ "") (hkeb : ∀ c ∈ name.data, isKebabChar c = true) :
    strIncludes (substitutePlaceholders name content) placeholderToken = false ∧
    substitutePlaceholders "my-app"
      "import \x7b DOMAIN_BASE \x7d from \x27@\x7b\x7bPROJECT_NAME\x7d\x7d/constants\x27;" =
      "import \x7b DOMAIN_BASE \x7d from \x27@my-app/constants\x27;" ∧
    strIncludes apigatewayTsTemplate placeholderToken = false ∧
    strIncludes (generateConstantsFile "my-app" "my-app.com" ["production"]
      true true true true true) placeholderToken = false ∧
    strIncludes (generateReadme "my-app" true true true true true) placeholderToken = false ∧
    strIncludes (generatePulumiEnvConfig "my-app" "production") placeholderToken = false := by
  refine ⟨?_, by decide, by decide, by decide, by decide, by decide⟩
  have hdata : name.data ≠ [] := by
    intro h0
    apply hne
    cases name
    simp at h0
    simp [h0]
  have hdisj : ∀ c ∈ name.data, c ∉ placeholderToken.data := by
    intro c hc hmem
    have h1 := hkeb c hc
    have h2 := placeholder_chars_not_kebab c hmem
    rw [h1] at h2
    cases h2
  have hnn : placeholderToken.data ≠ [] := by decide
  exact (replaceAllAux_totality placeholderToken.data name.data hnn hdata hdisj
    _ content.data (le_refl _)).1

/-- Witness for C2 at a concrete project name and content. -/
theorem claim2_witness :
    strIncludes (substitutePlaceholders "my-app"
      "# \x7b\x7bPROJECT_NAME\x7d\x7d monorepo for \x7b\x7bPROJECT_NAME\x7d\x7d\n")
      placeholderToken = false :=
  (substitution_totality "my-app"
    "# \x7b\x7bPROJECT_NAME\x7d\x7d monorepo for \x7b\x7bPROJECT_NAME\x7d\x7d\n"
    (by decide) (by decide)).1

/-! ## Backend-component rewrite behavior on the real template (C8) -/

/-- C8 (evaluation at the failing input): the template `apigateway.ts`
declares its dynamo parameter as the *optional* prop
`dynamodb?: DynamoResource;`, while the rewrite (cli.js line 616) only
removes the literal `dynamodb: DynamoResource;` — so on the real file
the parameter removal misses: the rewrite leaves the whole `Props`
block (and its dynamo-typed parameter) unchanged, while it does remove
the `DynamoResource` import from the imports block, leaving a dangling
type reference.  The index.ts removals behave as specified: on the real
components block the import removal erases the block, on the real
backend+exports tail the instantiation removal keeps exactly the
exports block, with all four backend features disabled the exports
block keeps only the `websiteUrl` export, and with only lambda enabled
it also retains the `apigwUrl` export. -/
theorem apigw_dynamo_rewrite_behavior :
    strIncludes apigatewayTsTemplate "  dynamodb?: DynamoResource;\n" = true ∧
    strIncludes apigatewayTsTemplate "  dynamodb: DynamoResource;\n" = false ∧
    apigwDynamoRewrite apigwPropsBlock = apigwPropsBlock ∧
    strIncludes apigwPropsBlock "  dynamodb?: DynamoResource;\n" = true ∧
    apigwDynamoRewrite apigwResourcesBlock =
      "/* ---------- Resources ---------- */\nimport \x7b ApiLambdas \x7d from \x27./lambdas\x27;\n\n" ∧
    removeFromThrough "/* ---------- Components ---------- */"
      "import \x7b BackendComponent \x7d" "\n\n" indexTsComponentsBlock = "" ∧
    removeUpTo "/* ---------- Backend ---------- */" "/* ---------- Exports"
      (indexTsBackendBlock ++ indexTsExportsBlock) = indexTsExportsBlock ∧
    infraIndexRewrite false false false false indexTsExportsBlock =
      "/* ---------- Exports ---------- */\nexport const websiteUrl = website.website.websiteEndpoint;\n" ∧
    infraIndexRewrite true false false false indexTsExportsBlock =
      "/* ---------- Exports ---------- */\nexport const websiteUrl = website.website.websiteEndpoint;\nexport const apigwUrl = backend.apigateway.api.apiEndpoint;\n" := by
  refine ⟨by decide, by decide, ?_, by decide, by decide, by decide, by decide,
    by decide, by decide⟩
  unfold apigwDynamoRewrite
  rw [replaceAll_no_match _ (by decide), replaceAll_no_match _ (by decide)]

/-! ## Inclusion filter completeness (C4) -/

/-- Bool negation unpacking. -/
theorem bool_eq_false {b : Bool} (h : ¬ b = true) : b = false := by
  cases b
  · rfl
  · exact absurd rfl h

/-- A prefix of an append is a prefix of the left part, or extends it
by a non-empty prefix of the right part. -/
theorem prefix_append_cases {l a b : List Char} (h : l <+: a ++ b) :
    l <+: a ∨ ∃ y, y ≠ [] ∧ y <+: b ∧ l = a ++ y := by
  have h1 : l = (a ++ b).take l.length := List.prefix_iff_eq_take.mp h
  by_cases hl : l.length ≤ a.length
  · left
    rw [List.take_append_eq_append_take, Nat.sub_eq_zero_of_le hl, List.take_zero,
      List.append_nil] at h1
    rw [h1]
    exact List.take_prefix _ _
  · right
    push_neg at hl
    rw [List.take_append_eq_append_take, List.take_of_length_le (by omega)] at h1
    refine ⟨b.take (l.length - a.length), ?_, List.take_prefix _ _, h1⟩
    have hlen : l.length ≤ a.length + b.length := by
      have h2 := h.length_le
      simpa [List.length_append] using h2
    have h3 : (b.take (l.length - a.length)).length = l.length - a.length :=
      List.length_take_of_le (by omega)
    intro h0
    rw [h0] at h3
    simp at h3
    omega

/-- A failed containment refutes the prefix relation. -/
theorem not_prefix_of_includes_false {h p : String}
    (hF : strIncludes h p = false) (hne : p.data ≠ []) : ¬ p.data <+: h.data := by
  intro hp
  have h2 := containsStr_of_prefix hp hne
  rw [strIncludes] at hF
  rw [h2] at hF
  cases hF

/-- A failed `startsWith` refutes the prefix relation. -/
theorem not_prefix_of_startsWith_false {h p : String}
    (hF : strStartsWith h p = false) : ¬ p.data <+: h.data := by
  intro hp
  have h2 := List.isPrefixOf_iff_prefix.mpr hp
  rw [strStartsWith] at hF
  rw [h2] at hF
  cases hF

/-- A failed containment refutes `startsWith`. -/
theorem startsWith_false_of_includes_false {rp pre : String}
    (h : strIncludes rp pre = false) (hne : pre.data ≠ []) :
    strStartsWith rp pre = false := by
  cases hx : strStartsWith rp pre with
  | false => rfl
  | true =>
    exfalso
    exact not_prefix_of_includes_false h hne (List.isPrefixOf_iff_prefix.mp hx)

/-- No non-empty prefix of `tail` is a suffix of `pre`, given the
finite check over all lengths. -/
theorem no_nonempty_tail_suffix {pre : List Char} (tail : List Char)
    (hdec : ∀ k, k < tail.length + 1 →
      k = 0 ∨ ((tail.take k).isSuffixOf pre) = false) :
    ∀ y, y ≠ [] → y <+: tail → ¬ y <:+ pre := by
  intro y hy0 hyp hys
  have h1 : y = tail.take y.length := List.prefix_iff_eq_take.mp hyp
  have h2 : y.length ≤ tail.length := hyp.length_le
  rcases hdec y.length (by omega) with h3 | h3
  · exact hy0 (List.length_eq_zero.mp h3)
  · have h4 := List.isSuffixOf_iff_suffix.mpr hys
    rw [h1] at h4
    rw [h4] at h3
    cases h3

/-- No non-empty prefix of a `/P…`-shaped tail is a suffix of a list
that neither ends in `/` nor contains `P`. -/
theorem no_slash_pp_suffix {pre : List Char} (hlast : pre.getLast? ≠ some '/')
    (hP : 'P' ∉ pre) (rest : List Char) :
    ∀ y, y ≠ [] → y <+: ('/' :: 'P' :: rest) → ¬ y <:+ pre := by
  intro y hy0 hyp hys
  cases y with
  | nil => exact hy0 rfl
  | cons y0 yt =>
    obtain ⟨h0, hyt⟩ := List.cons_prefix_cons.mp hyp
    cases yt with
    | nil =>
      subst h0
      rcases hys with ⟨t, ht⟩
      rw [← ht] at hlast
      exact hlast (List.getLast?_concat t)
    | cons y1 ys =>
      have h1 : y1 = 'P' := (List.cons_prefix_cons.mp hyt).1
      have h2 : y1 ∈ (y0 :: y1 :: ys) := by simp
      exact hP (h1 ▸ hys.subset h2)

/-- Head mismatch refutes `isPrefixOf`. -/
theorem isPrefixOf_cons_false {p0 b : Char} (pt bt : List Char) (h : p0 ≠ b) :
    (p0 :: pt).isPrefixOf (b :: bt) = false := by
  rw [List.isPrefixOf_cons₂]
  simp [h]

/-- A string not starting with `P` is no prefix of a generated
`Pulumi.<env>.yaml` file name. -/
theorem isPrefixOf_pulumi_false (pre env : String)
    (hh : pre.data.head? ≠ some 'P') (hne : pre.data ≠ []) :
    pre.data.isPrefixOf (("Pulumi." ++ env ++ ".yaml").data) = false := by
  cases hp : pre.data with
  | nil => exact absurd hp hne
  | cons p0 pt =>
    have h0 : p0 ≠ 'P' := by
      intro he
      apply hh
      rw [hp, he]
      rfl
    have hdata : ("Pulumi." ++ env ++ ".yaml").data =
        'P' :: ("ulumi." ++ env ++ ".yaml").data := rfl
    rw [hdata]
    exact isPrefixOf_cons_false pt _ h0

/-- Joining a directory that does not begin with `pre` with a file name
`pre` cannot reach either keeps `pre` from prefixing the result. -/
theorem prefix_joinRel_absurd {pre relDir fname : String}
    (hnp : ¬ pre.data <+: relDir.data)
    (hroot : pre.data.isPrefixOf fname.data = false)
    (htail : ∀ y, y ≠ [] → y <+: ('/' :: fname.data) → ¬ y <:+ pre.data)
    (h : strStartsWith (joinRel relDir fname) pre = true) : False := by
  rw [strStartsWith, joinRel] at h
  by_cases hrd : relDir == ""
  · rw [if_pos hrd] at h
    rw [h] at hroot
    cases hroot
  · rw [if_neg hrd] at h
    have hp : pre.data <+: (relDir ++ "/" ++ fname).data :=
      List.isPrefixOf_iff_prefix.mp h
    have hdata : (relDir ++ "/" ++ fname).data = relDir.data ++ ('/' :: fname.data) := by
      rw [String.data_append, String.data_append, List.append_assoc]
      rfl
    rw [hdata] at hp
    rcases prefix_append_cases hp with hleft | ⟨y, hy0, hyp, hype⟩
    · exact hnp hleft
    · refine htail y hy0 hyp ?_
      rw [hype]
      exact List.suffix_append relDir.data y

/-- Unpacking a false lambda skip at a path, when lambda is off. -/
theorem skipLambda_unpack {cfg : GenConfig} {d : String}
    (h : skipLambda cfg d = false) (hf : cfg.lambda = false) :
    strStartsWith d "packages/lambdas" = false ∧
    strIncludes d "infrastructure/src/resources/apigateway" = false ∧
    strIncludes d "infrastructure/src/resources/lambdas" = false := by
  rw [skipLambda, hf] at h
  simp at h
  exact ⟨h.1.1, h.1.2, h.2⟩

/-- Unpacking a false dynamo skip at a path, when dynamo is off. -/
theorem skipDynamo_unpack {cfg : GenConfig} {d : String}
    (h : skipDynamo cfg d = false) (hf : cfg.dynamo = false) :
    strIncludes d "infrastructure/src/resources/dynamo" = false := by
  rw [skipDynamo, hf] at h
  simpa using h

/-- Unpacking a false s3 skip at a path, when s3 is off. -/
theorem skipS3_unpack {cfg : GenConfig} {d : String}
    (h : skipS3 cfg d = false) (hf : cfg.s3 = false) :
    strIncludes d "infrastructure/src/resources/s3-storage" = false := by
  rw [skipS3, hf] at h
  simpa using h

/-- Unpacking a false cognito skip at a path, when cognito is off. -/
theorem skipCognito_unpack {cfg : GenConfig} {d : String}
    (h : skipCognito cfg d = false) (hf : cfg.cognito = false) :
    strIncludes d "infrastructure/src/resources/cognito" = false := by
  rw [skipCognito, hf] at h
  simpa using h

/-- A path that passes all four skip tests is owned-prefix free. -/
theorem ownedPrefixFree_of_skips {cfg : GenConfig} {rp : String}
    (hL : skipLambda cfg rp = false) (hD : skipDynamo cfg rp = false)
    (hS : skipS3 cfg rp = false) (hC : skipCognito cfg rp = false) :
    ownedPrefixFree cfg rp := by
  refine ⟨fun hf => ?_, fun hf => ?_, fun hf => ?_, fun hf => ?_⟩
  · obtain ⟨h1, h2, h3⟩ := skipLambda_unpack hL hf
    exact ⟨h1, startsWith_false_of_includes_false h2 (by decide),
      startsWith_false_of_includes_false h3 (by decide)⟩
  · exact startsWith_false_of_includes_false (skipDynamo_unpack hD hf) (by decide)
  · exact startsWith_false_of_includes_false (skipS3_unpack hS hf) (by decide)
  · exact startsWith_false_of_includes_false (skipCognito_unpack hC hf) (by decide)

/-- The `apigateway.ts` special branch only runs with lambda enabled,
and its output path stays clear of the dynamo/s3/cognito prefixes when
the parent directory passed those filters. -/
theorem ownedPrefixFree_special {cfg : GenConfig} {relDir : String}
    (hD : skipDynamo cfg relDir = false) (hS : skipS3 cfg relDir = false)
    (hC : skipCognito cfg relDir = false) (hlam : cfg.lambda = true) :
    ownedPrefixFree cfg (joinRel relDir "apigateway.ts") := by
  refine ⟨fun hf => ?_, fun hf => ?_, fun hf => ?_, fun hf => ?_⟩
  · rw [hlam] at hf
    cases hf
  · cases hx : strStartsWith (joinRel relDir "apigateway.ts")
        "infrastructure/src/resources/dynamo" with
    | false => rfl
    | true =>
      exact (prefix_joinRel_absurd
        (not_prefix_of_includes_false (skipDynamo_unpack hD hf) (by decide))
        (by decide) (no_nonempty_tail_suffix _ (by decide)) hx).elim
  · cases hx : strStartsWith (joinRel relDir "apigateway.ts")
        "infrastructure/src/resources/s3-storage" with
    | false => rfl
    | true =>
      exact (prefix_joinRel_absurd
        (not_prefix_of_includes_false (skipS3_unpack hS hf) (by decide))
        (by decide) (no_nonempty_tail_suffix _ (by decide)) hx).elim
  · cases hx : strStartsWith (joinRel relDir "apigateway.ts")
        "infrastructure/src/resources/cognito" with
    | false => rfl
    | true =>
      exact (prefix_joinRel_absurd
        (not_prefix_of_includes_false (skipCognito_unpack hC hf) (by decide))
        (by decide) (no_nonempty_tail_suffix _ (by decide)) hx).elim

/-- The generated `Pulumi.<env>.yaml` paths stay clear of every owned
prefix when the parent directory passed all filters. -/
theorem ownedPrefixFree_pulumi {cfg : GenConfig} {relDir : String} (env : String)
    (hL : skipLambda cfg relDir = false) (hD : skipDynamo cfg relDir = false)
    (hS : skipS3 cfg relDir = false) (hC : skipCognito cfg relDir = false) :
    ownedPrefixFree cfg (joinRel relDir ("Pulumi." ++ env ++ ".yaml")) := by
  have htail : ∀ (pre : String), pre.data.getLast? ≠ some '/' → 'P' ∉ pre.data →
      ∀ y, y ≠ [] → y <+: ('/' :: ("Pulumi." ++ env ++ ".yaml").data) → ¬ y <:+ pre.data := by
    intro pre h1 h2
    exact no_slash_pp_suffix h1 h2 (("ulumi." ++ env ++ ".yaml").data)
  refine ⟨fun hf => ?_, fun hf => ?_, fun hf => ?_, fun hf => ?_⟩
  · obtain ⟨h1, h2, h3⟩ := skipLambda_unpack hL hf
    refine ⟨?_, ?_, ?_⟩
    · cases hx : strStartsWith (joinRel relDir ("Pulumi." ++ env ++ ".yaml"))
          "packages/lambdas" with
      | false => rfl
      | true =>
        exact (prefix_joinRel_absurd (not_prefix_of_startsWith_false h1)
          (isPrefixOf_pulumi_false _ env (by decide) (by decide))
          (htail _ (by decide) (by decide)) hx).elim
    · cases hx : strStartsWith (joinRel relDir ("Pulumi." ++ env ++ ".yaml"))
          "infrastructure/src/resources/apigateway" with
      | false => rfl
      | true =>
        exact (prefix_joinRel_absurd (not_prefix_of_includes_false h2 (by decide))
          (isPrefixOf_pulumi_false _ env (by decide) (by decide))
          (htail _ (by decide) (by decide)) hx).elim
    · cases hx : strStartsWith (joinRel relDir ("Pulumi." ++ env ++ ".yaml"))
          "infrastructure/src/resources/lambdas" with
      | false => rfl
      | true =>
        exact (prefix_joinRel_absurd (not_prefix_of_includes_false h3 (by decide))
          (isPrefixOf_pulumi_false _ env (by decide) (by decide))
          (htail _ (by decide) (by decide)) hx).elim
  · cases hx : strStartsWith (joinRel relDir ("Pulumi." ++ env ++ ".yaml"))
        "infrastructure/src/resources/dynamo" with
    | false => rfl
    | true =>
      exact (prefix_joinRel_absurd
        (not_prefix_of_includes_false (skipDynamo_unpack hD hf) (by decide))
        (isPrefixOf_pulumi_false _ env (by decide) (by decide))
        (htail _ (by decide) (by decide)) hx).elim
  · cases hx : strStartsWith (joinRel relDir ("Pulumi." ++ env ++ ".yaml"))
        "infrastructure/src/resources/s3-storage" with
    | false => rfl
    | true =>
      exact (prefix_joinRel_absurd
        (not_prefix_of_includes_false (skipS3_unpack hS hf) (by decide))
        (isPrefixOf_pulumi_false _ env (by decide) (by decide))
        (htail _ (by decide) (by decide)) hx).elim
  · cases hx : strStartsWith (joinRel relDir ("Pulumi." ++ env ++ ".yaml"))
        "infrastructure/src/resources/cognito" with
    | false => rfl
    | true =>
      exact (prefix_joinRel_absurd
        (not_prefix_of_includes_false (skipCognito_unpack hC hf) (by decide))
        (isPrefixOf_pulumi_false _ env (by decide) (by decide))
        (htail _ (by decide) (by decide)) hx).elim

/-- C4: inclusion filter completeness.  For every configuration and
every template tree, if a feature among lambda/dynamo/s3/cognito is
disabled then no path produced by the copy pass — including the
generated `Pulumi.<env>.yaml` files and the output of the
`apigateway.ts` special branch — lies under that feature's owned
path-prefixes (`packages/lambdas`,
`infrastructure/src/resources/{apigateway,lambdas}` for lambda;
`infrastructure/src/resources/dynamo`; `.../s3-storage`;
`.../cognito`).  The hypotheses state that the parent directory itself
passed the four skip tests, which holds at the template root `""`. -/
theorem inclusion_filter_complete (cfg : GenConfig) :
    ∀ (t : FsTree) (relDir : String),
      skipLambda cfg relDir = false → skipDynamo cfg relDir = false →
      skipS3 cfg relDir = false → skipCognito cfg relDir = false →
      ∀ p c, (p, c) ∈ copyEntry cfg relDir t → ownedPrefixFree cfg p := by
  have H : ∀ (fuel : Nat) (t : FsTree), sizeOf t ≤ fuel → ∀ (relDir : String),
      skipLambda cfg relDir = false → skipDynamo cfg relDir = false →
      skipS3 cfg relDir = false → skipCognito cfg relDir = false →
      ∀ p c, (p, c) ∈ copyEntry cfg relDir t → ownedPrefixFree cfg p := by
    intro fuel
    induction fuel with
    | zero =>
      intro t ht
      exfalso
      cases t <;> simp at ht
    | succ fuel ihf =>
      intro t ht relDir hL hD hS hC p c hmem
      cases t with
      | file name content =>
        simp only [copyEntry] at hmem
        by_cases h1 : skipLambda cfg (joinRel relDir name) = true
        · rw [if_pos h1] at hmem
          simp at hmem
        · rw [if_neg h1] at hmem
          by_cases h2 : (cfg.lambda && !cfg.dynamo && (name == "apigateway.ts") &&
              strIncludes (joinRel relDir name) "infrastructure/src/resources") = true
          · rw [if_pos h2] at hmem
            simp only [List.mem_singleton, Prod.mk.injEq] at hmem
            obtain ⟨rfl, -⟩ := hmem
            simp only [Bool.and_eq_true, beq_iff_eq] at h2
            obtain ⟨⟨⟨hlam, -⟩, hnameq⟩, -⟩ := h2
            subst hnameq
            exact ownedPrefixFree_special hD hS hC hlam
          · rw [if_neg h2] at hmem
            by_cases h3 : skipDynamo cfg (joinRel relDir name) = true
            · rw [if_pos h3] at hmem
              simp at hmem
            · rw [if_neg h3] at hmem
              by_cases h4 : skipS3 cfg (joinRel relDir name) = true
              · rw [if_pos h4] at hmem
                simp at hmem
              · rw [if_neg h4] at hmem
                by_cases h5 : skipCognito cfg (joinRel relDir name) = true
                · rw [if_pos h5] at hmem
                  simp at hmem
                · rw [if_neg h5] at hmem
                  have hsk : ownedPrefixFree cfg (joinRel relDir name) :=
                    ownedPrefixFree_of_skips (bool_eq_false h1) (bool_eq_false h3)
                      (bool_eq_false h4) (bool_eq_false h5)
                  by_cases h6 : (name == "index.ts" &&
                      strIncludes (joinRel relDir name) "packages/constants/src") = true
                  · rw [if_pos h6] at hmem
                    simp only [List.mem_singleton, Prod.mk.injEq] at hmem
                    obtain ⟨rfl, -⟩ := hmem
                    exact hsk
                  · rw [if_neg h6] at hmem
                    by_cases h7 : (name == "README.md") = true
                    · rw [if_pos h7] at hmem
                      simp only [List.mem_singleton, Prod.mk.injEq] at hmem
                      obtain ⟨rfl, -⟩ := hmem
                      exact hsk
                    · rw [if_neg h7] at hmem
                      by_cases h8 : (name == "Pulumi.yaml" &&
                          strIncludes (joinRel relDir name) "infrastructure") = true
                      · rw [if_pos h8] at hmem
                        rcases List.mem_cons.mp hmem with heq | hmap
                        · rw [Prod.mk.injEq] at heq
                          obtain ⟨rfl, -⟩ := heq
                          exact hsk
                        · obtain ⟨env, henv, heq⟩ := List.mem_map.mp hmap
                          rw [Prod.mk.injEq] at heq
                          obtain ⟨hp0, -⟩ := heq
                          subst hp0
                          exact ownedPrefixFree_pulumi env hL hD hS hC
                      · rw [if_neg h8] at hmem
                        by_cases h9 : (name == "index.ts" &&
                            strIncludes (joinRel relDir name) "infrastructure/src" &&
                            !(strIncludes (joinRel relDir name)
                              "infrastructure/src/components") &&
                            !(strIncludes (joinRel relDir name)
                              "infrastructure/src/resources")) = true
                        · rw [if_pos h9] at hmem
                          simp only [List.mem_singleton, Prod.mk.injEq] at hmem
                          obtain ⟨rfl, -⟩ := hmem
                          exact hsk
                        · rw [if_neg h9] at hmem
                          simp only [List.mem_singleton, Prod.mk.injEq] at hmem
                          obtain ⟨rfl, -⟩ := hmem
                          exact hsk
      | dir name children =>
        simp only [copyEntry] at hmem
        by_cases h1 : skipLambda cfg (joinRel relDir name) = true
        · rw [if_pos h1] at hmem
          simp at hmem
        · rw [if_neg h1] at hmem
          by_cases h3 : skipDynamo cfg (joinRel relDir name) = true
          · rw [if_pos h3] at hmem
            simp at hmem
          · rw [if_neg h3] at hmem
            by_cases h4 : skipS3 cfg (joinRel relDir name) = true
            · rw [if_pos h4] at hmem
              simp at hmem
            · rw [if_neg h4] at hmem
              by_cases h5 : skipCognito cfg (joinRel relDir name) = true
              · rw [if_pos h5] at hmem
                simp at hmem
              · rw [if_neg h5] at hmem
                obtain ⟨a, ha, hmem2⟩ := List.mem_flatMap.mp hmem
                have hsize : sizeOf (a.1 : FsTree) ≤ fuel := by
                  have hlt := List.sizeOf_lt_of_mem a.2
                  have hdir : sizeOf (FsTree.dir name children) ≤ fuel + 1 := ht
                  simp only [FsTree.dir.sizeOf_spec] at hdir
                  omega
                exact ihf a.1 hsize (joinRel relDir name) (bool_eq_false h1)
                  (bool_eq_false h3) (bool_eq_false h4) (bool_eq_false h5) p c hmem2
  intro t relDir
  exact H (sizeOf t) t (le_refl _) relDir

/-- Witness for C4: a concrete all-features-off configuration, a tiny
template with one plain file, and its produced output path. -/
theorem claim4_witness :
    ownedPrefixFree
      ⟨"my-app", "my-app.com", false, false, false, false, false, ["production"]⟩
      "server.js" := by
  refine inclusion_filter_complete
    ⟨"my-app", "my-app.com", false, false, false, false, false, ["production"]⟩
    (FsTree.file "server.js" "console.log(1);\n") "" (by decide) (by decide)
    (by decide) (by decide) "server.js"
    (substitutePlaceholders "my-app" "console.log(1);\n") ?_
  simp [copyEntry, skipLambda, skipDynamo, skipS3, skipCognito, joinRel]
  decide

end Cma
